import Mathlib

/-!
Verification of the snc-attachment-downloader scripts (`src/unnamed/part_000`,
the current script with logging/progress/concurrency, and the earlier
`src/attachmentDownloader.js`) against their natural-language specification.

The JavaScript is shallowly embedded: the filesystem is a finite list of
existing paths, node's `path` helpers are modelled over `/`-separated strings,
HTTP interaction is modelled by the value of the response handed to each
callback, and the callback-chained control flow (`async-waterfall`,
`async.eachOfLimit`) is modelled by explicit result values and a dispatch
transition system. Uncaught exceptions — which neither library catches and
which kill the node process, aborting the batch — are modelled as a
distinguished pipeline end state.
-/

namespace AttachmentDownloader

/-! ## Path helpers (model of node's `path` module over `/`-separated strings) -/

/-- Path separator, modelling `path.sep` on a POSIX system. -/
def sepStr : String := "/"

/-- Model of `path.join(a, b)` for ordinary relative segments. -/
def pathJoin (a b : String) : String := a ++ sepStr ++ b

/-- The last path component: everything after the final separator
(model of `path.basename(p)` with no extension argument). -/
def pathBasenameFull (p : String) : String :=
  String.mk ((p.data.reverse.takeWhile (fun c => c != '/')).reverse)

/-- Model of `path.dirname(p)`: everything before the final separator,
`"."` when there is none, `"/"` for paths directly under the root. -/
def pathDirname (p : String) : String :=
  match p.data.reverse.dropWhile (fun c => c != '/') with
  | [] => "."
  | _ :: tail => if tail.isEmpty then sepStr else String.mk tail.reverse

/-- Model of `path.extname(p)`: the suffix of the basename from its last dot,
empty when the basename has no dot or only a leading dot. -/
def pathExtname (p : String) : String :=
  let b := (pathBasenameFull p).data
  let afterRev := b.reverse.takeWhile (fun c => c != '.')
  if afterRev.length = b.length then ""
  else if afterRev.length + 1 = b.length then ""
  else String.mk ('.' :: afterRev.reverse)

/-- Model of `path.basename(p, ext)`: the last component with the suffix
`ext` stripped when it is a proper suffix. -/
def pathBasename (p ext : String) : String :=
  let b := (pathBasenameFull p).data
  let e := ext.data
  if b ≠ e ∧ e.isSuffixOf b then String.mk (b.take (b.length - e.length))
  else String.mk b

/-! ## Decimal rendering of the disambiguator index
(model of JavaScript's number-to-string coercion `'' + x` for naturals) -/

/-- Decimal digits of `n`, most significant first; structural on a fuel
argument so that concrete values reduce in the kernel. -/
def natCharsGo : Nat → Nat → List Char
  | 0, _ => []
  | fuel + 1, n =>
    if n < 10 then [Nat.digitChar n]
    else natCharsGo fuel (n / 10) ++ [Nat.digitChar (n % 10)]

/-- Decimal string of a natural number, as JavaScript renders `'' + x`. -/
def natStr (n : Nat) : String := String.mk (natCharsGo (n + 1) n)

/-- Reads a digit string back to its value; used to prove `natStr` injective. -/
def charsVal (l : List Char) : Nat :=
  l.foldl (fun a c => 10 * a + (c.toNat - 48)) 0

/-! ## The filesystem model -/

/-- A filesystem state: the finite set of paths (files or directories)
that currently exist, as checked by `fs.existsSync`. -/
abbrev FS := List String

/-- Model of `fs.existsSync(p)`. -/
def existsSync (fs : FS) (p : String) : Bool := fs.contains p

/-- Model of the script's `__dirname`: the fixed base directory in which
the attachment tree is created. -/
def dirBase : String := "/base"

/-- Model of node's non-recursive `fs.mkdirSync(p)`: fails with `EEXIST`
when `p` exists, fails with `ENOENT` when the parent does not exist, and
otherwise adds exactly the one directory `p`. -/
def mkdirSync (fs : FS) (p : String) : Except String FS :=
  if existsSync fs p then Except.error "EEXIST"
  else if existsSync fs (pathDirname p) then Except.ok (p :: fs)
  else Except.error "ENOENT"

/-- `AttachmentHandler.createDirectorySync(dir)` from the source: joins the
directory onto `__dirname` and calls `fs.mkdirSync` unless the directory
already exists. -/
def createDirectorySync (fs : FS) (dir : String) : Except String FS :=
  if existsSync fs (pathJoin dirBase dir) then Except.ok fs
  else mkdirSync fs (pathJoin dirBase dir)

/-! ## Filename sanitization -/

/-- The punctuation denylist of `cleanFileName`'s first regex,
`/[|&;$%@"<>()+,*]/g`. -/
def denylist : List Char :=
  ['|', '&', ';', '$', '%', '@', '"', '<', '>', '(', ')', '+', ',', '*']

/-- `AttachmentHandler.cleanFileName(filename)` from the source: first remove
every denylisted character, then remove every character outside `\x00-\x7F`. -/
def cleanFileName (filename : String) : String :=
  let step1 := filename.data.filter (fun c => !(denylist.contains c))
  let step2 := step1.filter (fun c => decide (c.toNat ≤ 127))
  String.mk step2

/-! ## Filename uniquification -/

/-- The candidate path built in each iteration of `getUniquePath`'s loop:
`dirname + path.sep + filename + '[' + x + ']' + ext`, where `ext`,
`dirname` and `filename` are recomputed from the (unchanging) `dirPath`. -/
def variant (dirPath : String) (x : Nat) : String :=
  pathDirname dirPath ++ sepStr ++ pathBasename dirPath (pathExtname dirPath)
    ++ "[" ++ natStr x ++ "]" ++ pathExtname dirPath

/-- The `while (!uniqueFilename)` loop of `getUniquePath`: try the variants
in increasing order of `x`. The JavaScript loop is unbounded; the model
carries fuel (instantiated below at one more than the number of existing
paths, which always suffices because distinct variants are distinct paths). -/
def getUniquePathGo (fs : FS) (dirPath : String) : Nat → Nat → Option String
  | 0, _ => none
  | fuel + 1, x =>
    if existsSync fs (variant dirPath x) then getUniquePathGo fs dirPath fuel (x + 1)
    else some (variant dirPath x)

/-- `AttachmentHandler.getUniquePath(dirPath)` from `src/unnamed/part_000`:
the path is first passed through `cleanFileName`, returned as-is when no
file exists at it, and otherwise disambiguated by the loop starting at 1. -/
def getUniquePath (fs : FS) (dirPath : String) : Option String :=
  if existsSync fs (cleanFileName dirPath) then
    getUniquePathGo fs (cleanFileName dirPath) (fs.length + 1) 1
  else some (cleanFileName dirPath)

/-! ## Attachment records and owner resolution -/

/-- The fields of a `sys_attachment` record that the script reads. -/
structure Att where
  file_name : String
  table_name : String
  sys_id : String
  table_sys_id : String
deriving DecidableEq

/-- The fields of the owner record (`body.result`) that the script reads. -/
structure OwnerRecord where
  number : Option String
  sys_id : String
deriving DecidableEq

/-- `body.result.number ? body.result.number : body.result.sys_id`: the task
number when present and truthy (a missing field and the empty string are
falsy in JavaScript), else the record identifier. -/
def taskNumberOf (r : OwnerRecord) : String :=
  match r.number with
  | some s => if s = "" then r.sys_id else s
  | none => r.sys_id

/-- The outcome of one HTTP request as seen by a `request` callback:
either a truthy transport `error`, or a response with a status code and a
parsed body. -/
inductive RemoteResponse where
  | transportError (e : String)
  | response (statusCode : Nat) (body : OwnerRecord)
deriving DecidableEq

/-- What a waterfall stage passes to its continuation: a truthy error, a
successful value, or `callback(e)` with a *falsy* `e` — which waterfall
treats as success carrying no value. -/
inductive CbResult where
  | err (e : String)
  | ok (taskNumber : String)
  | okNoValue
deriving DecidableEq

/-- The owner-resolution `request` callback inside `writeAttachment`:
`if (error) return callback(error);` then
`if (!error && response.statusCode !== 200) return callback(error);`
(note: in that branch `error` is null, so the continuation is invoked
*successfully* with no value), else parse the body and pass the task
number on. -/
def ownerResolutionCallback : RemoteResponse → CbResult
  | RemoteResponse.transportError e => CbResult.err e
  | RemoteResponse.response statusCode body =>
    if statusCode ≠ 200 then CbResult.okNoValue
    else CbResult.ok (taskNumberOf body)

/-! ## The per-attachment pipeline and the batch dispatch -/

/-- The owner-resolution environment of one attachment: the response the
instance gives to the attachment's owner-resolution request. This narrow
environment only feeds `pipelineErr` below; the full per-attachment
pipeline with its later failure points is `writeAttachmentRun` over
`PipelineEnv`. -/
structure AttEnv where
  ownerResp : RemoteResponse
deriving DecidableEq

/-- The error value delivered to `writeAttachment`'s final waterfall handler
`function (err) { cb(); }` by the owner-resolution stage alone (the only
stage that ever passes a truthy error to a continuation). -/
def pipelineErr (env : AttEnv) : Option String :=
  match ownerResolutionCallback env.ownerResp with
  | CbResult.err e => some e
  | _ => none

/-- The final waterfall handler of `writeAttachment`:
`function (err) { cb(); }` — whatever error arrives, the `eachOfLimit`
per-item callback is invoked with no error. -/
def finalHandler (_err : Option String) : Option String := none

/-- The full per-attachment environment: everything the outside world
decides during `writeAttachment`'s three waterfall stages, in program
order — whether `createDirectorySync(table_name)` succeeds (a `mkdirSync`
throw is an uncaught exception), the owner-resolution response, whether
`JSON.parse(body)` succeeds on it (a throw is uncaught), whether
`createDirectorySync(table/taskNumber)` succeeds, and whether the download
stream reaches its `complete` event (a transport error emits an unhandled
`error` event, which is an uncaught exception). -/
structure PipelineEnv where
  tableDirOk : Bool
  ownerResp : RemoteResponse
  ownerBodyParses : Bool
  taskDirOk : Bool
  downloadOk : Bool
deriving DecidableEq

/-- The end state of one attachment's pipeline: the final waterfall
handler is reached with no error (`Done`) or with a truthy error
(`Failed`, which the handler swallows), or a step raised an uncaught
exception that kills the whole node process (`Crashed`). -/
inductive PipelineEnd where
  | Done
  | Failed (e : String)
  | Crashed
deriving DecidableEq

/-- The end state `writeAttachment` reaches in a given environment,
following the source's control flow: a `mkdirSync` throw in stage 1 is
uncaught; a transport error is passed to `callback` and reaches the final
handler; a non-200 status executes `callback(error)` with `error` null,
so stage 2 runs with no task number and its `path.join` throws an uncaught
`TypeError`; a `JSON.parse` throw is uncaught; a stage-2 `mkdirSync` throw
is uncaught; an unhandled download-stream error event is uncaught; and a
completed download calls back with no error. Neither `async-waterfall`
nor `async.eachOfLimit` catches exceptions, so every uncaught throw is
`Crashed`. -/
def writeAttachmentRun (env : PipelineEnv) : PipelineEnd :=
  if env.tableDirOk then
    match env.ownerResp with
    | RemoteResponse.transportError e => PipelineEnd.Failed e
    | RemoteResponse.response statusCode _ =>
      if statusCode ≠ 200 then PipelineEnd.Crashed
      else if env.ownerBodyParses then
        if env.taskDirOk then
          if env.downloadOk then PipelineEnd.Done else PipelineEnd.Crashed
        else PipelineEnd.Crashed
      else PipelineEnd.Crashed
  else PipelineEnd.Crashed

/-- The batch dispatch, projected onto which attachments get processed:
each attachment's pipeline runs; a `Failed` or `Done` end state hands its
error (or none) to `finalHandler`, whose value is what the `eachOfLimit`
per-item callback receives — an errored callback would stop the dispatch —
while a `Crashed` pipeline kills the process, so the remaining attachments
are never processed. Returns the end states of the attachments that ran
and whether the process crashed. -/
def runBatch (envf : Att → PipelineEnv) : List Att → List (Att × PipelineEnd) × Bool
  | [] => ([], false)
  | a :: rest =>
    match writeAttachmentRun (envf a) with
    | PipelineEnd.Crashed => ([(a, PipelineEnd.Crashed)], true)
    | PipelineEnd.Done =>
      match finalHandler none with
      | some _ => ([(a, PipelineEnd.Done)], false)
      | none =>
        let rb := runBatch envf rest
        ((a, PipelineEnd.Done) :: rb.1, rb.2)
    | PipelineEnd.Failed e =>
      match finalHandler (some e) with
      | some _ => ([(a, PipelineEnd.Failed e)], false)
      | none =>
        let rb := runBatch envf rest
        ((a, PipelineEnd.Failed e) :: rb.1, rb.2)

/-- The target file path computed in `writeAttachment`'s download stage:
`getUniquePath(path.join(path.join(table_name, taskNumber), file_name))`. -/
def attachmentTargetPath (fs : FS) (att : Att) (taskNumber : String) : Option String :=
  getUniquePath fs (pathJoin (pathJoin att.table_name taskNumber) att.file_name)

/-! ## The list-query continuation -/

/-- The `body.result.forEach` loop of the list-query callback: a counter
starts at 1, each record is pushed, and the waterfall continuation is
invoked (with everything pushed so far) exactly when the counter equals the
length of the result array. Returns the value the continuation is invoked
with, or `none` when it is never invoked. -/
def listLoopGo (n : Nat) : List Att → List Att → Nat → Option (List Att)
  | [], _, _ => none
  | att :: rest, pushed, counter =>
    if counter = n then some (pushed ++ [att])
    else listLoopGo n rest (pushed ++ [att]) (counter + 1)

/-- The list-query continuation behaviour on a successfully parsed result
array. -/
def listLoop (atts : List Att) : Option (List Att) :=
  listLoopGo atts.length atts [] 1

/-! ## Configuration check -/

/-- The configuration fields the script reads from `./config`. -/
structure Config where
  instanceName : Option String
  userName : Option String
  password : Option String
  attachmentFilter : Option String
  logfile : Option String
deriving DecidableEq

/-- JavaScript falsiness of a configuration value: missing or empty. -/
def falsy : Option String → Bool
  | none => true
  | some s => decide (s = "")

/-- The guard of
`if (!instanceName || !userName || !password || !attachmentFilter || !logfile)`. -/
def badConfig (c : Config) : Bool :=
  falsy c.instanceName || falsy c.userName || falsy c.password
    || falsy c.attachmentFilter || falsy c.logfile

/-- How a run starts: `process.exit(1)` on a bad configuration — before any
network request is issued — and otherwise the download flow proceeds. -/
inductive StartOutcome where
  | fatalConfig
  | proceed
deriving DecidableEq

/-- The start of the script: the configuration check runs first. -/
def startRun (c : Config) : StartOutcome :=
  if badConfig c then StartOutcome.fatalConfig else StartOutcome.proceed

/-! ## The bounded dispatcher (`async.eachOfLimit(attachments, 5, ...)`) -/

/-- The concurrency limit passed literally at the `eachOfLimit` call site. -/
def downloadLimit : Nat := 5

/-- Dispatcher state: attachments not yet dispatched, attachments currently
inside the `OwnerResolving..Downloading` pipeline, attachments whose
per-item callback has fired. -/
structure SchedState where
  pending : List Att
  active : List Att
  done : List Att

/-- One dispatcher transition: start the next pending attachment when a
slot is free (strictly fewer than `limit` active), or complete an active
attachment. Attachments beyond the cap can only wait. -/
inductive SchedStep (limit : Nat) : SchedState → SchedState → Prop where
  | dispatch (a : Att) (rest act done : List Att) :
      act.length < limit →
      SchedStep limit ⟨a :: rest, act, done⟩ ⟨rest, a :: act, done⟩
  | complete (a : Att) (pend act done : List Att) :
      a ∈ act →
      SchedStep limit ⟨pend, act, done⟩ ⟨pend, act.erase a, a :: done⟩

/-- The dispatcher's initial state: the whole listed batch pending. -/
def initState (atts : List Att) : SchedState := ⟨atts, [], []⟩

/-- Reachability under dispatcher transitions. -/
def Reaches (limit : Nat) : SchedState → SchedState → Prop :=
  Relation.ReflTransGen (SchedStep limit)

end AttachmentDownloader

namespace AttachmentDownloader

/-! ## Concrete sample values used by witnesses -/

/-- A sample attachment record. -/
def attX : Att := ⟨"x.txt", "incident", "sx", "tx"⟩

/-- A second, independent sample attachment record. -/
def attY : Att := ⟨"y.txt", "incident", "sy", "ty"⟩

/-- A sample environment in which `attX`'s owner resolution suffers a
transport error and every other step of every attachment succeeds. -/
def envT (a : Att) : PipelineEnv :=
  if a = attX then ⟨true, RemoteResponse.transportError "ECONNRESET", true, true, true⟩
  else ⟨true, RemoteResponse.response 200 ⟨some "INC0010001", "r1"⟩, true, true, true⟩

/-- A sample environment in which `attX`'s owner resolution returns HTTP
500 and every step of every other attachment succeeds. -/
def envC (a : Att) : PipelineEnv :=
  if a = attX then ⟨true, RemoteResponse.response 500 ⟨none, "r0"⟩, true, true, true⟩
  else ⟨true, RemoteResponse.response 200 ⟨some "INC0010001", "r1"⟩, true, true, true⟩

/-! ## General lemmas about the embedding -/

/-- String concatenation concatenates the underlying character lists. -/
theorem data_append (a b : String) : (a ++ b).data = a.data ++ b.data := rfl

/-- The code of a decimal digit character. -/
theorem digitChar_toNat {d : Nat} (h : d < 10) : (Nat.digitChar d).toNat = 48 + d := by
  interval_cases d <;> rfl

/-- Decimal digit characters are never a closing bracket. -/
theorem digitChar_ne_rbracket {d : Nat} (h : d < 10) : Nat.digitChar d ≠ ']' := by
  interval_cases d <;> decide

/-- Appending one digit multiplies the read-back value by ten. -/
theorem charsVal_append_singleton (l : List Char) (c : Char) :
    charsVal (l ++ [c]) = 10 * charsVal l + (c.toNat - 48) := by
  simp [charsVal, List.foldl_append]

/-- Reading the decimal rendering back yields the original number. -/
theorem charsVal_natCharsGo : ∀ fuel n, n < fuel → charsVal (natCharsGo fuel n) = n := by
  intro fuel
  induction fuel with
  | zero => intro n h; exact absurd h (Nat.not_lt_zero n)
  | succ f ih =>
    intro n h
    by_cases h10 : n < 10
    · simp only [natCharsGo, if_pos h10, charsVal, List.foldl_cons, List.foldl_nil]
      rw [digitChar_toNat h10]
      omega
    · have h1 : n / 10 < f := by
        have := Nat.div_lt_self (show 0 < n by omega) (show 1 < 10 by omega)
        omega
      rw [natCharsGo, if_neg h10, charsVal_append_singleton, ih _ h1,
        digitChar_toNat (Nat.mod_lt n (by omega))]
      omega

/-- The decimal rendering is injective. -/
theorem natStr_inj {a b : Nat} (h : natStr a = natStr b) : a = b := by
  have hd : natCharsGo (a + 1) a = natCharsGo (b + 1) b := congrArg String.data h
  have ha := charsVal_natCharsGo (a + 1) a (Nat.lt_succ_self a)
  have hb := charsVal_natCharsGo (b + 1) b (Nat.lt_succ_self b)
  rw [hd, hb] at ha
  exact ha.symm

/-- Every character of the decimal rendering is a digit, never `]`. -/
theorem natCharsGo_mem {fuel n : Nat} {c : Char} (h : c ∈ natCharsGo fuel n) : c ≠ ']' := by
  induction fuel generalizing n with
  | zero => simp [natCharsGo] at h
  | succ f ih =>
    by_cases h10 : n < 10
    · rw [natCharsGo, if_pos h10] at h
      simp at h
      subst h
      exact digitChar_ne_rbracket h10
    · rw [natCharsGo, if_neg h10] at h
      rcases List.mem_append.mp h with h | h
      · exact ih h
      · simp at h
        subst h
        exact digitChar_ne_rbracket (Nat.mod_lt n (by omega))

/-- Splitting at the first closing bracket is unambiguous. -/
theorem append_rbracket_inj : ∀ (a c b d : List Char),
    (∀ ch ∈ a, ch ≠ ']') → (∀ ch ∈ c, ch ≠ ']') →
    a ++ ']' :: b = c ++ ']' :: d → a = c := by
  intro a
  induction a with
  | nil =>
    intro c b d _ hc h
    cases c with
    | nil => rfl
    | cons y ys =>
      simp at h
      exact absurd h.1.symm (hc y (by simp))
  | cons x xs ih =>
    intro c b d ha hc h
    cases c with
    | nil =>
      simp at h
      exact absurd h.1 (ha x (by simp))
    | cons y ys =>
      simp at h
      obtain ⟨hxy, hrest⟩ := h
      subst hxy
      rw [ih ys b d (fun ch hch => ha ch (by simp [hch])) (fun ch hch => hc ch (by simp [hch]))
        hrest]

/-- Decomposition of a variant path into its constant parts and the digits. -/
theorem variant_data (q : String) (n : Nat) :
    (variant q n).data =
      (pathDirname q ++ sepStr ++ pathBasename q (pathExtname q) ++ "[").data
        ++ (natCharsGo (n + 1) n ++ (']' :: (pathExtname q).data)) := by
  simp [variant, data_append, natStr, List.append_assoc]

/-- Distinct disambiguator indices give distinct variant paths. -/
theorem variant_inj (q : String) {a b : Nat} (h : variant q a = variant q b) : a = b := by
  have hd := congrArg String.data h
  rw [variant_data, variant_data] at hd
  have h2 := List.append_cancel_left hd
  have h3 := append_rbracket_inj _ _ _ _ (fun ch hch => natCharsGo_mem hch)
    (fun ch hch => natCharsGo_mem hch) h2
  have ha := charsVal_natCharsGo (a + 1) a (Nat.lt_succ_self a)
  have hb := charsVal_natCharsGo (b + 1) b (Nat.lt_succ_self b)
  rw [h3, hb] at ha
  exact ha.symm

/-- A path that `existsSync` reports is a member of the filesystem. -/
theorem existsSync_mem {fs : FS} {p : String} (h : existsSync fs p = true) : p ∈ fs := by
  simpa [existsSync, List.elem_iff] using h

/-- If the variants `1..x-1` all exist, there are at least `x - 1` paths. -/
theorem variant_pigeonhole (fs : FS) (q : String) (x : Nat)
    (hall : ∀ y, 1 ≤ y → y < x → existsSync fs (variant q y) = true) :
    x - 1 ≤ fs.length := by
  have hinj : Function.Injective (fun i : Nat => variant q (i + 1)) := by
    intro i j hij
    have := variant_inj q hij
    omega
  have hnd : ((List.range (x - 1)).map (fun i => variant q (i + 1))).Nodup :=
    (List.nodup_range (x - 1)).map hinj
  have hsub : ((List.range (x - 1)).map (fun i => variant q (i + 1))) ⊆ fs := by
    intro v hv
    simp only [List.mem_map, List.mem_range] at hv
    obtain ⟨i, hi, rfl⟩ := hv
    exact existsSync_mem (hall (i + 1) (by omega) (by omega))
  have := (List.subperm_of_subset hnd hsub).length_le
  simpa using this

/-- The uniquification loop returns the first free variant at or after its
starting index, given enough fuel. -/
theorem getUniquePathGo_spec (fs : FS) (q : String) (x : Nat)
    (hfree : existsSync fs (variant q x) = false) :
    ∀ fuel z, z ≤ x → x - z < fuel →
      (∀ y, z ≤ y → y < x → existsSync fs (variant q y) = true) →
      getUniquePathGo fs q fuel z = some (variant q x) := by
  intro fuel
  induction fuel with
  | zero => intro z h1 h2 _; omega
  | succ f ih =>
    intro z hzx hlt hall
    by_cases hz : z = x
    · subst hz
      simp [getUniquePathGo, hfree]
    · have hex := hall z (Nat.le_refl z) (by omega)
      simp only [getUniquePathGo, hex, if_pos]
      exact ih (z + 1) (by omega) (by omega) (fun y hy1 hy2 => hall y (by omega) hy2)

end AttachmentDownloader

namespace AttachmentDownloader

/-- When no attachment's pipeline crashes, the batch dispatch processes
every attachment, records each one's own end state, and never aborts. -/
theorem runBatch_no_crash (envf : Att → PipelineEnv) :
    ∀ atts : List Att, (∀ a ∈ atts, writeAttachmentRun (envf a) ≠ PipelineEnd.Crashed) →
      runBatch envf atts = (atts.map (fun a => (a, writeAttachmentRun (envf a))), false) := by
  intro atts
  induction atts with
  | nil => intro _; rfl
  | cons a rest ih =>
    intro h
    have ha := h a (by simp)
    have hrest := ih (fun b hb => h b (by simp [hb]))
    cases hw : writeAttachmentRun (envf a) with
    | Done => simp [runBatch, hw, finalHandler, hrest]
    | Failed e => simp [runBatch, hw, finalHandler, hrest]
    | Crashed => exact absurd hw ha

/-- The only pipeline end state that delivers an error to the final
handler is an owner-resolution transport error: every other failure point
of `writeAttachment` crashes instead of failing. -/
theorem writeAttachmentRun_failed {env : PipelineEnv} {e : String}
    (h : writeAttachmentRun env = PipelineEnd.Failed e) :
    env.ownerResp = RemoteResponse.transportError e := by
  obtain ⟨t1, resp, parses, t2, dl⟩ := env
  cases resp with
  | transportError e' => cases t1 <;> simp_all [writeAttachmentRun]
  | response sc body =>
    by_cases hsc : sc = 200 <;> cases t1 <;> cases parses <;> cases t2 <;> cases dl <;>
      simp_all [writeAttachmentRun]

/-- The `forEach` counter reaches the array length exactly at the last
record, at which point the continuation receives everything pushed. -/
theorem listLoopGo_reaches (n : Nat) :
    ∀ (rest pushed : List Att) (c : Nat), c + rest.length = n + 1 → rest ≠ [] →
      listLoopGo n rest pushed c = some (pushed ++ rest) := by
  intro rest
  induction rest with
  | nil => intro pushed c _ hne; exact absurd rfl hne
  | cons a rest' ih =>
    intro pushed c hc _
    by_cases h' : rest' = []
    · subst h'
      have hcn : c = n := by simp at hc; omega
      simp [listLoopGo, hcn]
    · have hlen : 0 < rest'.length := List.length_pos.mpr h'
      have hcn : c ≠ n := by simp at hc; omega
      rw [listLoopGo, if_neg hcn, ih (pushed ++ [a]) (c + 1) (by simp at hc ⊢; omega) h']
      simp

/-! ## The claims -/

/-- C1: the spec says a non-200 owner-resolution response fails the
attachment's pipeline with a `RemoteError`. The code instead executes
`callback(error)` with `error === null` in that branch, so the waterfall
continuation is invoked *successfully* (with no task number) and no error
is delivered to the pipeline's final handler: the pipeline continues
rather than failing. Evaluated here at a 500 response. -/
theorem ownerResolution_non200_continues :
    ownerResolutionCallback (RemoteResponse.response 500 ⟨none, "rec1"⟩) = CbResult.okNoValue ∧
    pipelineErr ⟨RemoteResponse.response 500 ⟨none, "rec1"⟩⟩ = none := by decide

/-- C2 counterexample: a failure at one step of one attachment's pipeline
*does* abort the batch. In `envC`, `attX`'s owner resolution returns HTTP
500 — a per-step failure — and the non-200 slip sends `callback(null)`
into the next stage, whose `path.join` on the missing task number throws
an uncaught `TypeError` that kills the process: `attY`, whose every
response and step succeeds on its own, is never processed and never
reaches `Done`. -/
theorem batch_aborts_on_uncaught_step_failure :
    runBatch envC [attX, attY] = ([(attX, PipelineEnd.Crashed)], true) ∧
    writeAttachmentRun (envC attY) = PipelineEnd.Done := by decide

/-- C2 (amended): only failures that are *delivered* to an attachment's
waterfall continuation — owner-resolution transport errors — are
isolated. When no attachment's pipeline crashes, the batch never aborts:
every attachment is processed with its own end state (even while `X`'s
pipeline fails), a `Failed` end state can only stem from an
owner-resolution transport error, and every attachment whose own steps
all succeed reaches `Done`. Every other per-step failure raises an
uncaught exception, which is the aborting case of the counterexample. -/
theorem transport_failures_isolated (envf : Att → PipelineEnv) (atts : List Att)
    (X : Att) (e : String) (hX : X ∈ atts)
    (hfail : writeAttachmentRun (envf X) = PipelineEnd.Failed e)
    (hnc : ∀ a ∈ atts, writeAttachmentRun (envf a) ≠ PipelineEnd.Crashed) :
    (runBatch envf atts).2 = false ∧
    (runBatch envf atts).1 = atts.map (fun a => (a, writeAttachmentRun (envf a))) ∧
    (∀ a ∈ atts, ∀ e', writeAttachmentRun (envf a) = PipelineEnd.Failed e' →
      (envf a).ownerResp = RemoteResponse.transportError e') ∧
    (∀ a ∈ atts, (envf a).tableDirOk = true →
      (∃ r, (envf a).ownerResp = RemoteResponse.response 200 r) →
      (envf a).ownerBodyParses = true → (envf a).taskDirOk = true →
      (envf a).downloadOk = true →
      writeAttachmentRun (envf a) = PipelineEnd.Done) := by
  have hb := runBatch_no_crash envf atts hnc
  refine ⟨by rw [hb], by rw [hb], ?_, ?_⟩
  · intro a _ e' hfe
    exact writeAttachmentRun_failed hfe
  · intro a _ ht hresp hp htd hdl
    obtain ⟨r, hr⟩ := hresp
    simp [writeAttachmentRun, ht, hr, hp, htd, hdl]

/-- C2 witness: in `envT` — `attX`'s owner resolution suffers a transport
error, which is delivered to its final handler and swallowed — the batch
`[attX, attY]` is fully processed without aborting, `attX` ends `Failed`
and `attY` ends `Done`. -/
theorem transport_failures_isolated_witness :
    (runBatch envT [attX, attY]).2 = false ∧
    (runBatch envT [attX, attY]).1 =
      [attX, attY].map (fun a => (a, writeAttachmentRun (envT a))) := by
  have h := transport_failures_isolated envT [attX, attY] attX "ECONNRESET"
    (by decide) (by decide) (by decide)
  exact ⟨h.1, h.2.1⟩

/-- C3 counterexample: the claim says `uniquify` returns the candidate path
unchanged when no file exists at it, but `getUniquePath` first sanitizes
the whole path, so `"a@b.txt"` comes back altered even over an empty
filesystem. -/
theorem getUniquePath_alters_unsanitized_path :
    getUniquePath [] "a@b.txt" = some "ab.txt" ∧
    existsSync [] "a@b.txt" = false ∧ ("ab.txt" : String) ≠ "a@b.txt" := by decide

/-- C3 (amended): `getUniquePath` first strips the denylisted punctuation
and non-ASCII characters from the candidate path; it returns the sanitized
path unchanged when no file exists at it, and otherwise returns the first
variant of the sanitized path — the numeric disambiguator `[x]` inserted
immediately before the file extension, `x` checked in increasing order
starting at 1 — that does not exist on the filesystem. -/
theorem getUniquePath_first_free_variant (fs : FS) (p : String) (x : Nat)
    (hx : 1 ≤ x)
    (hall : ∀ y, 1 ≤ y → y < x → existsSync fs (variant (cleanFileName p) y) = true)
    (hfree : existsSync fs (variant (cleanFileName p) x) = false) :
    (existsSync fs (cleanFileName p) = false → getUniquePath fs p = some (cleanFileName p)) ∧
    (existsSync fs (cleanFileName p) = true →
      getUniquePath fs p = some (variant (cleanFileName p) x)) := by
  constructor
  · intro h
    simp [getUniquePath, h]
  · intro h
    have hb := variant_pigeonhole fs (cleanFileName p) x hall
    simp only [getUniquePath, h, if_pos]
    exact getUniquePathGo_spec fs (cleanFileName p) x hfree (fs.length + 1) 1 hx (by omega)
      (fun y hy1 hy2 => hall y hy1 hy2)

/-- C3 witness: over a filesystem containing only `d/q.txt`, uniquifying
`d/q.txt` yields the first variant `d/q[1].txt`. -/
theorem getUniquePath_first_free_variant_witness :
    getUniquePath ["d/q.txt"] "d/q.txt" = some (variant (cleanFileName "d/q.txt") 1) :=
  (getUniquePath_first_free_variant ["d/q.txt"] "d/q.txt" 1 (Nat.le_refl 1)
    (fun y hy1 hy2 => absurd (Nat.lt_of_le_of_lt hy1 hy2) (Nat.lt_irrefl 1))
    (by decide)).2 (by decide)

/-- C4: owner resolution on a 200 response yields the record's `number`
field when present and non-empty, else its `sys_id`. -/
theorem taskNumber_resolution (r : OwnerRecord) :
    ownerResolutionCallback (RemoteResponse.response 200 r) = CbResult.ok (taskNumberOf r) ∧
    (∀ s, r.number = some s → s ≠ "" → taskNumberOf r = s) ∧
    (r.number = none ∨ r.number = some "" → taskNumberOf r = r.sys_id) := by
  refine ⟨by simp [ownerResolutionCallback], ?_, ?_⟩
  · intro s hs hne
    simp [taskNumberOf, hs, hne]
  · intro h
    rcases h with h | h <;> simp [taskNumberOf, h]

/-- C4 witness: a record with task number `INC0010001` resolves to it. -/
theorem taskNumber_resolution_witness :
    taskNumberOf ⟨some "INC0010001", "sysid0"⟩ = "INC0010001" :=
  (taskNumber_resolution ⟨some "INC0010001", "sysid0"⟩).2.1 "INC0010001" rfl (by decide)

/-- C5 counterexample: the claim says directory components are used exactly
as resolved and only the file name is sanitized; but the written target
path sanitizes the whole joined path, so an owner table `t@l` loses its
`@` in the file path. -/
theorem targetPath_sanitizes_directories_cex :
    attachmentTargetPath [] ⟨"f.txt", "t@l", "id", "tid"⟩ "T1" = some "tl/T1/f.txt" ∧
    ("tl/T1/f.txt" : String) ≠ pathJoin (pathJoin "t@l" "T1") (cleanFileName "f.txt") := by
  decide

/-- C5 (amended): the target path written to disk is the sanitized form of
the *entire* joined path `ownerTable/ownerLabel/fileName` (then uniquified):
the denylist/non-ASCII stripping applies to the directory components as
well as the file name. Stated for target paths with no collision. -/
theorem targetPath_sanitizes_directories (fs : FS) (att : Att) (tn : String)
    (h : existsSync fs (cleanFileName (pathJoin (pathJoin att.table_name tn) att.file_name))
      = false) :
    attachmentTargetPath fs att tn =
      some (cleanFileName (pathJoin (pathJoin att.table_name tn) att.file_name)) := by
  simp [attachmentTargetPath, getUniquePath, h]

/-- C5 witness: the amended statement evaluated at the `t@l` example. -/
theorem targetPath_sanitizes_directories_witness :
    attachmentTargetPath [] ⟨"f.txt", "t@l", "id", "tid"⟩ "T1" =
      some (cleanFileName (pathJoin (pathJoin "t@l" "T1") "f.txt")) :=
  targetPath_sanitizes_directories [] ⟨"f.txt", "t@l", "id", "tid"⟩ "T1" (by decide)

/-- C6 counterexample: the claim says missing parent directories are
created, but `createDirectorySync` calls the non-recursive `fs.mkdirSync`,
which fails with `ENOENT` when the parent of `a/b` does not exist. -/
theorem createDirectorySync_no_parent_creation :
    createDirectorySync [dirBase] "a/b" = Except.error "ENOENT" := rfl

/-- C6 (amended): `createDirectorySync` creates the single directory
(rooted at the fixed base) when its parent exists, is a no-op — not an
error — when the directory already exists, and fails with `ENOENT` when a
parent directory is missing. -/
theorem createDirectorySync_single_level (fs : FS) (dir : String) :
    (existsSync fs (pathJoin dirBase dir) = true → createDirectorySync fs dir = Except.ok fs) ∧
    (existsSync fs (pathJoin dirBase dir) = false →
      existsSync fs (pathDirname (pathJoin dirBase dir)) = true →
      createDirectorySync fs dir = Except.ok (pathJoin dirBase dir :: fs)) ∧
    (existsSync fs (pathJoin dirBase dir) = false →
      existsSync fs (pathDirname (pathJoin dirBase dir)) = false →
      createDirectorySync fs dir = Except.error "ENOENT") := by
  refine ⟨fun h => by simp [createDirectorySync, h],
    fun h1 h2 => by simp [createDirectorySync, mkdirSync, h1, h2],
    fun h1 h2 => by simp [createDirectorySync, mkdirSync, h1, h2]⟩

/-- C6 witness: creating `a` under the base directory succeeds, and doing
so again is a no-op. -/
theorem createDirectorySync_single_level_witness :
    createDirectorySync [dirBase] "a" = Except.ok (pathJoin dirBase "a" :: [dirBase]) ∧
    createDirectorySync [pathJoin dirBase "a", dirBase] "a"
      = Except.ok [pathJoin dirBase "a", dirBase] :=
  ⟨(createDirectorySync_single_level [dirBase] "a").2.1 (by decide) (by decide),
    (createDirectorySync_single_level [pathJoin dirBase "a", dirBase] "a").1 (by decide)⟩

/-- C7: `cleanFileName` is exactly a filter over the input's characters —
a pure function of its input — and every character of its output is
outside the punctuation denylist and is ASCII. -/
theorem cleanFileName_strips (s : String) :
    cleanFileName s =
      String.mk (s.data.filter (fun c => decide (c.toNat ≤ 127) && !(denylist.contains c))) ∧
    ∀ c, c ∈ (cleanFileName s).data → ¬ c ∈ denylist ∧ c.toNat ≤ 127 := by
  constructor
  · simp [cleanFileName, List.filter_filter]
  · intro c hc
    simp [cleanFileName, List.mem_filter] at hc
    exact ⟨hc.2.2, hc.2.1⟩

/-- C7 witness: the character `a` survives sanitization of `"a@b"` and is
indeed a permitted ASCII character. -/
theorem cleanFileName_strips_witness :
    ¬ 'a' ∈ denylist ∧ 'a'.toNat ≤ 127 :=
  (cleanFileName_strips "a@b").2 'a' (by decide)

/-- C8 counterexample: the claim says only instance host, user name,
password and attachment filter are required, the log destination being
optional; but with those four present and `logfile` absent the script
still exits before any network call. -/
theorem configCheck_logfile_required :
    startRun ⟨some "h", some "u", some "p", some "f", none⟩ = StartOutcome.fatalConfig ∧
    falsy (some "h") = false ∧ falsy (some "u") = false ∧
    falsy (some "p") = false ∧ falsy (some "f") = false := by decide

/-- C8 (amended): the script exits with a non-zero code before any network
call if and only if one of `instanceName`, `userName`, `password`,
`attachmentFilter` or `logfile` is absent or empty: the log destination is
a required field too (and the concurrency limit is not configurable at
all, so its absence never causes an exit). -/
theorem configCheck_required_fields (c : Config) :
    startRun c = StartOutcome.fatalConfig ↔
      (falsy c.instanceName = true ∨ falsy c.userName = true ∨ falsy c.password = true ∨
        falsy c.attachmentFilter = true ∨ falsy c.logfile = true) := by
  have h1 : startRun c = StartOutcome.fatalConfig ↔ badConfig c = true := by
    unfold startRun
    by_cases hb : badConfig c = true <;> simp [hb]
  rw [h1]
  simp [badConfig, Bool.or_eq_true, or_assoc]

/-- C9: under the dispatcher semantics of `async.eachOfLimit(attachments,
5, ...)`, every state reachable from the initial batch has at most 5
attachments simultaneously inside the `OwnerResolving..Downloading`
pipeline. -/
theorem dispatch_bounded (atts : List Att) (s : SchedState)
    (h : Reaches downloadLimit (initState atts) s) :
    s.active.length ≤ downloadLimit := by
  induction h with
  | refl => simp [initState]
  | tail _ step ih =>
    cases step with
    | dispatch a rest act done hlt => simpa using hlt
    | complete a pend act done hmem =>
      exact le_trans (List.length_erase_le a act) ih

/-- C9 witness: the initial state of a one-attachment batch is reachable
and satisfies the bound. -/
theorem dispatch_bounded_witness :
    (initState [attX]).active.length ≤ downloadLimit :=
  dispatch_bounded [attX] (initState [attX]) Relation.ReflTransGen.refl

/-- C10: when the list query succeeds with zero records the waterfall
continuation is never invoked — it fires only from inside the iteration
over a non-empty result array, where it receives the whole list. -/
theorem listQuery_empty_no_continuation :
    listLoop ([] : List Att) = none ∧
    ∀ l : List Att, l ≠ [] → listLoop l = some l := by
  refine ⟨rfl, fun l h => ?_⟩
  have hgo := listLoopGo_reaches l.length l [] 1 (by omega) h
  simpa [listLoop] using hgo

/-- C10 witness: a one-record result does invoke the continuation with the
full list. -/
theorem listQuery_empty_no_continuation_witness :
    listLoop [attX] = some [attX] :=
  listQuery_empty_no_continuation.2 [attX] (by decide)

end AttachmentDownloader
